import Mathlib

/-!
Verification of the mujina board-management protocol layer and its
surrounding utilities.

The first half embeds the bitaxe-raw protocol core (frame codec, control
channel, GPIO / I2C / ADC operations).  The second half embeds the
difficulty display formatting (`types/display_difficulty.rs`) and the
daemon entry point (`bin/minerd.rs`).

Bytes are modelled as `Nat` with explicit bounds where they matter;
fallible operations return `Except`; the transport is modelled as an
explicit list of per-cycle outcomes threaded through each operation.
-/

namespace Mujina

/-! ## Frame codec -/

/-- Modelled from the spec: the frame payload capacity — `length` bounds the
payload to a small fixed protocol-defined maximum (≤ 32 bytes, §6).  The
exact constant is a structural placeholder (§9, open question). -/
def MAX_PAYLOAD : Nat := 32

/-- Modelled from the spec: the frame integrity check covering
opcode + length + payload (§3, §6).  The exact algorithm is a structural
placeholder (§9, open question); an 8-bit additive checksum is used. -/
def checksum8 (bytes : List Nat) : Nat :=
  bytes.foldl (fun a b => (a + b) % 256) 0

/-- Modelled from the spec: the tagged `Command` value, one of
`GpioSet{pin, level}`, `GpioGet{pin}`, `I2cRead{address, register, length}`,
`I2cWrite{address, register, data}`, `AdcRead{channel}` (§3). -/
inductive Command where
  | gpioSet (pin level : Nat)
  | gpioGet (pin : Nat)
  | i2cRead (address register length : Nat)
  | i2cWrite (address register : Nat) (data : List Nat)
  | adcRead (channel : Nat)
deriving DecidableEq

/-- Modelled from the spec: the tagged `Response` value, `Ack{payload}` or
`Nack{reason_code}` (§3). -/
inductive Response where
  | ack (payload : List Nat)
  | nack (reason : Nat)
deriving DecidableEq

/-- Modelled from the spec: the closed opcode enumeration (§6).  The numeric
values are structural placeholders (§9, open question). -/
def OP_GPIO_SET : Nat := 1
/-- Modelled from the spec: opcode for `GpioGet` (§6). -/
def OP_GPIO_GET : Nat := 2
/-- Modelled from the spec: opcode for `I2cRead` (§6). -/
def OP_I2C_READ : Nat := 3
/-- Modelled from the spec: opcode for `I2cWrite` (§6). -/
def OP_I2C_WRITE : Nat := 4
/-- Modelled from the spec: opcode for `AdcRead` (§6). -/
def OP_ADC_READ : Nat := 5
/-- Modelled from the spec: response tag for `Ack` (§6). -/
def OP_ACK : Nat := 6
/-- Modelled from the spec: response tag for `Nack` (§6). -/
def OP_NACK : Nat := 7

/-- Modelled from the spec: opcode of each command kind (§3, §6). -/
def commandOpcode : Command → Nat
  | .gpioSet _ _ => OP_GPIO_SET
  | .gpioGet _ => OP_GPIO_GET
  | .i2cRead _ _ _ => OP_I2C_READ
  | .i2cWrite _ _ _ => OP_I2C_WRITE
  | .adcRead _ => OP_ADC_READ

/-- Modelled from the spec: command-specific payload bytes (§3, §6). -/
def commandPayload : Command → List Nat
  | .gpioSet pin level => [pin, level]
  | .gpioGet pin => [pin]
  | .i2cRead address register length => [address, register, length]
  | .i2cWrite address register data => address :: register :: data
  | .adcRead channel => [channel]

/-- Modelled from the spec: the wire format
`[opcode:1][length:1][payload:length][checksum:1]` (§6); `encode` never
fails for well-formed commands (§4.1). -/
def encodeCommand (c : Command) : List Nat :=
  let op := commandOpcode c
  let p := commandPayload c
  op :: p.length :: p ++ [checksum8 (op :: p.length :: p)]

/-- Modelled from the spec: tag byte of a response (§6). -/
def responseOpcode : Response → Nat
  | .ack _ => OP_ACK
  | .nack _ => OP_NACK

/-- Modelled from the spec: payload bytes of a response (§3, §6). -/
def responsePayload : Response → List Nat
  | .ack p => p
  | .nack reason => [reason]

/-- Modelled from the spec: encoding of a response in the wire format
`[opcode:1][length:1][payload:length][checksum:1]` (§6). -/
def encodeResponse (r : Response) : List Nat :=
  let op := responseOpcode r
  let p := responsePayload r
  op :: p.length :: p ++ [checksum8 (op :: p.length :: p)]

/-- Modelled from the spec: decode failure reasons (§4.1). -/
inductive DecodeError where
  | truncated
  | checksumMismatch
  | unknownOpcode
deriving DecidableEq

/-- Modelled from the spec: `decode(byte sequence) -> Result<Response,
DecodeError>` — `Truncated` when fewer bytes than the declared length are
present, `ChecksumMismatch` when the integrity check fails,
`UnknownOpcode` for an unrecognized response tag; pure, no side effects
(§4.1, §6). -/
def decode (bytes : List Nat) : Except DecodeError Response :=
  match bytes with
  | op :: len :: rest =>
    if rest.length < len + 1 then
      Except.error DecodeError.truncated
    else
      let payload := rest.take len
      if checksum8 (op :: len :: payload) ≠ rest.getD len 0 then
        Except.error DecodeError.checksumMismatch
      else if op = OP_ACK then
        Except.ok (Response.ack payload)
      else if op = OP_NACK then
        Except.ok (Response.nack (payload.headD 0))
      else
        Except.error DecodeError.unknownOpcode
  | _ => Except.error DecodeError.truncated

/-- Modelled from the spec: a byte sequence is a well-formed frame when it
carries a declared length matched by enough bytes, a matching integrity
check, and a recognized response tag (§3: a frame is valid only if the
integrity check matches). -/
def wellFramed (bytes : List Nat) : Prop :=
  match bytes with
  | op :: len :: rest =>
    len + 1 ≤ rest.length ∧
    checksum8 (op :: len :: rest.take len) = rest.getD len 0 ∧
    (op = OP_ACK ∨ op = OP_NACK)
  | _ => False

instance (bytes : List Nat) : Decidable (wellFramed bytes) := by
  unfold wellFramed
  match bytes with
  | [] => exact inferInstanceAs (Decidable False)
  | [_] => exact inferInstanceAs (Decidable False)
  | _ :: _ :: _ => exact inferInstanceAs (Decidable (_ ∧ _))

/-- Modelled from the spec: validity of a command at construction time —
I2C address in 0–127, payload sizes bounded by the frame capacity, all
bytes one byte wide, GPIO level two-valued (§3, §4.4). -/
def validCommand : Command → Prop
  | .gpioSet pin level => pin < 256 ∧ level ≤ 1
  | .gpioGet pin => pin < 256
  | .i2cRead address register length =>
      address ≤ 127 ∧ register < 256 ∧ length ≤ MAX_PAYLOAD
  | .i2cWrite address register data =>
      address ≤ 127 ∧ register < 256 ∧ data.length ≤ MAX_PAYLOAD ∧
      ∀ b ∈ data, b < 256
  | .adcRead channel => channel < 256

instance : ∀ c : Command, Decidable (validCommand c)
  | .gpioSet _ _ => inferInstanceAs (Decidable (_ ∧ _))
  | .gpioGet _ => inferInstanceAs (Decidable (_ < _))
  | .i2cRead _ _ _ => inferInstanceAs (Decidable (_ ∧ _))
  | .i2cWrite _ _ _ => inferInstanceAs (Decidable (_ ∧ _))
  | .adcRead _ => inferInstanceAs (Decidable (_ < _))

/-- Modelled from the spec: the payload size of the `Ack` expected for each
command kind — `GpioSet`/`I2cWrite` acknowledge with no returned bytes,
`GpioGet` returns one level byte, `I2cRead` returns the requested bytes,
`AdcRead` returns a two-byte raw sample (§4.3–§4.5). -/
def ackPayloadLen : Command → Nat
  | .gpioSet _ _ => 0
  | .gpioGet _ => 1
  | .i2cRead _ _ length => length
  | .i2cWrite _ _ _ => 0
  | .adcRead _ => 2

/-! ## Control channel -/

/-- Modelled from the spec: the Control Channel owns the transport and a
buffer of partial bytes already read from it (§4.2). -/
structure ChannelState where
  buffer : List Nat
deriving DecidableEq

/-- Modelled from the spec: channel failures — `Timeout`, or a decode
failure surfaced as `Protocol(DecodeError)` (§4.2). -/
inductive ChannelError where
  | timeout
  | protocol (e : DecodeError)
deriving DecidableEq

/-- Modelled from the spec: what the transport does during one
request/response cycle — either the timeout elapses with only stray
partial bytes received, or a complete frame's bytes are delivered (§4.2). -/
inductive TransportOutcome where
  | timedOut (stray : List Nat)
  | delivered (bytes : List Nat)
deriving DecidableEq

/-- Modelled from the spec: `execute(Command, timeout) -> Result<Response,
ChannelError>` — writes the encoded frame, reads until a complete frame is
decodable or the timeout elapses, consuming exactly one transport cycle
(zero automatic retries, §4.2).  On timeout it returns
`ChannelError::Timeout` and discards any partial bytes already buffered;
on a decode failure it returns `ChannelError::Protocol`; resynchronization
leaves the buffer empty at a frame boundary before the next request.  The
transport is an explicit list of per-cycle outcomes; the unconsumed suffix
is returned. -/
def execute (_st : ChannelState) (_c : Command)
    (outcomes : List TransportOutcome) :
    Except ChannelError Response × ChannelState × List TransportOutcome :=
  match outcomes with
  | [] => (Except.error ChannelError.timeout, ⟨[]⟩, [])
  | TransportOutcome.timedOut _ :: rest =>
      (Except.error ChannelError.timeout, ⟨[]⟩, rest)
  | TransportOutcome.delivered bytes :: rest =>
      match decode bytes with
      | Except.error e => (Except.error (ChannelError.protocol e), ⟨[]⟩, rest)
      | Except.ok r => (Except.ok r, ⟨[]⟩, rest)

/-- Modelled from the spec: one event on the physical transport — the
channel writing a request frame or reading a response frame (§4.2, §8). -/
inductive TraceEvent where
  | wr (bytes : List Nat)
  | rd (bytes : List Nat)
deriving DecidableEq

/-- Modelled from the spec: one complete request/response cycle on the
transport — the encoded request written, then the device's reply read
(§4.2).  `respond` gives the device's reply bytes for each request. -/
def requestCycle (respond : Command → List Nat) (c : Command) :
    List TraceEvent :=
  [TraceEvent.wr (encodeCommand c), TraceEvent.rd (respond c)]

/-- Modelled from the spec: the Control Channel as a single-task
message-passing arbiter (§9): concurrent callers' requests queue in
arrival order (first-come-first-served, §4.2) and are processed one full
request/response cycle at a time, producing the transport trace. -/
def channelTrace (respond : Command → List Nat) :
    List Command → List TraceEvent
  | [] => []
  | c :: rest => requestCycle respond c ++ channelTrace respond rest

/-- Modelled from the spec: the number of requests outstanding on the
transport after a sequence of events — a write opens a request, a read
resolves it (§4.2 half-duplex invariant). -/
def outstandingAfter (events : List TraceEvent) : Nat :=
  events.foldl
    (fun n e => match e with
      | TraceEvent.wr _ => n + 1
      | TraceEvent.rd _ => n - 1) 0

/-! ## GPIO controller -/

/-- Modelled from the spec: GPIO failures (§4.3). -/
inductive GpioError where
  | rejected (reason : Nat)
  | unreachable
  | malformedResponse
deriving DecidableEq

/-- Modelled from the spec: the fixed small retry bound for `GpioSet`
(default 2 retries, §4.3). -/
def GPIO_SET_RETRIES : Nat := 2

/-- Modelled from the spec: the retrying loop inside `GpioController::set`
(§4.3) — each attempt is one `execute` cycle; `Ack` maps to success,
`Nack` to `Rejected(reason)`, a channel failure consumes one retry
(transport-equivalent failures are retryable for idempotent operations,
§7) until the bound is exhausted, then surfaces as `Unreachable`.  The
final `Nat` counts the attempts performed. -/
def gpioSetAttempts (pin level : Nat) :
    Nat → ChannelState → List TransportOutcome →
    Except GpioError Unit × ChannelState × List TransportOutcome × Nat
  | retriesLeft, st, outcomes =>
    match execute st (Command.gpioSet pin level) outcomes with
    | (Except.ok (Response.ack _), st2, rest) =>
        (Except.ok (), st2, rest, 1)
    | (Except.ok (Response.nack reason), st2, rest) =>
        (Except.error (GpioError.rejected reason), st2, rest, 1)
    | (Except.error _, st2, rest) =>
      match retriesLeft with
      | 0 => (Except.error GpioError.unreachable, st2, rest, 1)
      | n + 1 =>
        let (res, st3, rest2, k) := gpioSetAttempts pin level n st2 rest
        (res, st3, rest2, k + 1)

/-- Modelled from the spec: `GpioController::set(pin, level)` — builds
`GpioSet`, calls the Control Channel, retries timeouts up to
`GPIO_SET_RETRIES` because setting a pin level is idempotent (§4.3). -/
def gpioSet (pin level : Nat) (st : ChannelState)
    (outcomes : List TransportOutcome) :
    Except GpioError Unit × ChannelState × List TransportOutcome × Nat :=
  gpioSetAttempts pin level GPIO_SET_RETRIES st outcomes

/-! ## I2C passthrough -/

/-- Modelled from the spec: I2C failures (§4.4). -/
inductive I2cError where
  | invalidArgument
  | deviceNack (reason : Nat)
  | unreachable
  | malformedResponse
deriving DecidableEq

/-- Modelled from the spec: `I2cPassthrough::read(address, register,
length)` — `address` must be in 0–127 and `length` must not exceed the
frame payload capacity; violations fail fast with `InvalidArgument`
without touching the channel (§4.4).  Otherwise one `execute` cycle:
`Ack` yields the returned bytes, `Nack` maps to `DeviceNack(reason)`, and
a channel failure to `Unreachable` with zero automatic retries.  The
final `Nat` counts the transport cycles performed. -/
def i2cRead (address register length : Nat) (st : ChannelState)
    (outcomes : List TransportOutcome) :
    Except I2cError (List Nat) × ChannelState × List TransportOutcome × Nat :=
  if 127 < address ∨ MAX_PAYLOAD < length then
    (Except.error I2cError.invalidArgument, st, outcomes, 0)
  else
    match execute st (Command.i2cRead address register length) outcomes with
    | (Except.ok (Response.ack p), st2, rest) => (Except.ok p, st2, rest, 1)
    | (Except.ok (Response.nack reason), st2, rest) =>
        (Except.error (I2cError.deviceNack reason), st2, rest, 1)
    | (Except.error _, st2, rest) =>
        (Except.error I2cError.unreachable, st2, rest, 1)

/-- Modelled from the spec: `I2cPassthrough::write(address, register,
data)` — same validation as `read`; `Nack` maps to `DeviceNack(reason)`
and is never retried (I2C writes are not assumed idempotent, §4.4);
timeouts surface as `Unreachable` after zero automatic retries.  The
final `Nat` counts the transport cycles performed. -/
def i2cWrite (address register : Nat) (data : List Nat) (st : ChannelState)
    (outcomes : List TransportOutcome) :
    Except I2cError Unit × ChannelState × List TransportOutcome × Nat :=
  if 127 < address ∨ MAX_PAYLOAD < data.length then
    (Except.error I2cError.invalidArgument, st, outcomes, 0)
  else
    match execute st (Command.i2cWrite address register data) outcomes with
    | (Except.ok (Response.ack _), st2, rest) => (Except.ok (), st2, rest, 1)
    | (Except.ok (Response.nack reason), st2, rest) =>
        (Except.error (I2cError.deviceNack reason), st2, rest, 1)
    | (Except.error _, st2, rest) =>
        (Except.error I2cError.unreachable, st2, rest, 1)

/-! ## ADC reader -/

/-- Modelled from the spec: ADC failures (§4.5). -/
inductive AdcError where
  | invalidChannel
  | rejected (reason : Nat)
  | unreachable
  | malformedResponse
deriving DecidableEq

/-- Modelled from the spec: the board's set of valid ADC channel indices
(§4.5).  The exact count is a structural placeholder (§9). -/
def ADC_CHANNELS : Nat := 4

/-- Modelled from the spec: `AdcReader::read(channel)` — validates the
channel index, builds `AdcRead`, decodes the two-byte little-endian raw
sample on `Ack`; `Nack` maps to `Rejected(reason)` and a timeout to
`Unreachable`, with no retries (§4.5).  The final `Nat` counts the
transport cycles performed. -/
def adcRead (channel : Nat) (st : ChannelState)
    (outcomes : List TransportOutcome) :
    Except AdcError Nat × ChannelState × List TransportOutcome × Nat :=
  if ADC_CHANNELS ≤ channel then
    (Except.error AdcError.invalidChannel, st, outcomes, 0)
  else
    match execute st (Command.adcRead channel) outcomes with
    | (Except.ok (Response.ack p), st2, rest) =>
        if p.length = 2 then
          (Except.ok (p.getD 0 0 + 256 * p.getD 1 0), st2, rest, 1)
        else
          (Except.error AdcError.malformedResponse, st2, rest, 1)
    | (Except.ok (Response.nack reason), st2, rest) =>
        (Except.error (AdcError.rejected reason), st2, rest, 1)
    | (Except.error _, st2, rest) =>
        (Except.error AdcError.unreachable, st2, rest, 1)

/-! ## Display difficulty (`types/display_difficulty.rs`)

Floating-point values are embedded as exact rationals.  This is faithful
for the properties proved below: the zero test in `from_hash` is exact in
IEEE-754 (a sum of nonnegative doubles is `0.0` exactly when every term
is zero, and `u64 as f64` is zero exactly when the integer is zero), and
the threshold constants `1e3 … 1e15`, `10.0`, `100.0` are exactly
representable. -/

/-- Little-endian base-256 value of a byte sequence, as computed by
`u64::from_le_bytes` on 8-byte slices and by cgminer's `le256todouble`
layout on the full 32 bytes. -/
def leNat : List Nat → Nat
  | [] => 0
  | b :: rest => b + 256 * leNat rest

/-- The constant `BITS_64 = 2^64` from `hash_to_f64`. -/
def BITS_64 : ℚ := 18446744073709551616

/-- The constant `BITS_128 = 2^128` from `hash_to_f64`. -/
def BITS_128 : ℚ := 340282366920938463463374607431768211456

/-- The constant `BITS_192 = 2^192` from `hash_to_f64`. -/
def BITS_192 : ℚ :=
  6277101735386680763835789423207666416102355444464034512896

/-- The constant `DIFFICULTY_1_TARGET_F64` from `from_hash`. -/
def DIFFICULTY_1_TARGET_F64 : ℚ :=
  26959535291011309493156476344723991336010898738574164086137773096960

/-- The exact value of `f64::MAX`, `(2^53 - 1) * 2^971`. -/
def F64_MAX : ℚ := (2 ^ 53 - 1) * 2 ^ 971

/-- `DisplayDifficulty::hash_to_f64`: the hash's 32 bytes processed in
little-endian 64-bit chunks, `chunk0 + chunk1 * BITS_64 + chunk2 *
BITS_128 + chunk3 * BITS_192`. -/
def hash_to_f64 (bytes : List Nat) : ℚ :=
  (leNat (bytes.take 8) : ℚ)
    + (leNat ((bytes.drop 8).take 8) : ℚ) * BITS_64
    + (leNat ((bytes.drop 16).take 8) : ℚ) * BITS_128
    + (leNat ((bytes.drop 24).take 8) : ℚ) * BITS_192

/-- `DisplayDifficulty::from_hash`: if the hash converts to `0.0` return
`f64::MAX`, otherwise `DIFFICULTY_1_TARGET_F64 / hash_f64`. -/
def from_hash (bytes : List Nat) : ℚ :=
  if hash_to_f64 bytes = 0 then F64_MAX
  else DIFFICULTY_1_TARGET_F64 / hash_to_f64 bytes

/-- The SI-suffix selection in `impl fmt::Display for DisplayDifficulty`:
first matching threshold wins, returning the scaled value and suffix. -/
def siSplit (value : ℚ) : ℚ × String :=
  if value ≥ 1000000000000000 then (value / 1000000000000000, "P")
  else if value ≥ 1000000000000 then (value / 1000000000000, "T")
  else if value ≥ 1000000000 then (value / 1000000000, "G")
  else if value ≥ 1000000 then (value / 1000000, "M")
  else if value ≥ 1000 then (value / 1000, "K")
  else (value, "")

/-- The precision selection in `impl fmt::Display for DisplayDifficulty`:
0 decimal places when the scaled value is ≥ 100, 1 when ≥ 10, else 2. -/
def displayPrecision (scaled : ℚ) : Nat :=
  if scaled ≥ 100 then 0
  else if scaled ≥ 10 then 1
  else 2

/-- The full formatting choice of the `Display` implementation: scaled
value, suffix, and number of decimal places. -/
def displayFormat (value : ℚ) : ℚ × String × Nat :=
  let (scaled, suffix) := siSplit value
  (scaled, suffix, displayPrecision scaled)

/-! ## Daemon entry point (`bin/minerd.rs`) -/

/-- The observable behaviour of one run of `minerd`'s `main`: what it
printed, its exit code, and whether tracing was initialized and the
daemon constructed and run. -/
structure MainResult where
  printedHelp : Bool
  printedUnknownOption : Bool
  exitCode : Nat
  tracingInitialized : Bool
  daemonRan : Bool
deriving DecidableEq

/-- `main` from `bin/minerd.rs`: `args` is `std::env::args()` including
the program name at index 0.  If more than one element is present,
`--help` prints the help text and returns `Ok(())`; any other first
argument prints an unknown-option message and exits with status 1; only
with no arguments does it initialize tracing and run the daemon. -/
def minerd_main (args : List String) : MainResult :=
  if h : 1 < args.length then
    if args.get ⟨1, h⟩ = "--help" then
      ⟨true, false, 0, false, false⟩
    else
      ⟨false, true, 1, false, false⟩
  else
    ⟨false, false, 0, true, true⟩

/-! ## Helper lemmas -/

theorem take_append_self (p l : List Nat) : (p ++ l).take p.length = p := by
  induction p with
  | nil => rfl
  | cons b t ih => simp [ih]

theorem getD_append_self (p l : List Nat) (d : Nat) :
    (p ++ l).getD p.length d = l.getD 0 d := by
  induction p with
  | nil => rfl
  | cons b t ih => simpa using ih

theorem decode_frame (op : Nat) (p : List Nat) :
    decode (op :: p.length :: p ++ [checksum8 (op :: p.length :: p)]) =
      if op = OP_ACK then Except.ok (Response.ack p)
      else if op = OP_NACK then Except.ok (Response.nack (p.headD 0))
      else Except.error DecodeError.unknownOpcode := by
  have hlen : (p ++ [checksum8 (op :: p.length :: p)]).length = p.length + 1 := by
    simp
  have htake := take_append_self p [checksum8 (op :: p.length :: p)]
  have hgetD := getD_append_self p [checksum8 (op :: p.length :: p)] 0
  simp only [decode, hlen, htake, hgetD, Nat.lt_irrefl, if_false,
    List.getD, ne_eq, not_true_eq_false, ite_false]
  simp

theorem decode_encodeResponse (r : Response) :
    decode (encodeResponse r) = Except.ok r := by
  cases r with
  | ack p =>
    have h := decode_frame OP_ACK p
    simpa [encodeResponse, responseOpcode, responsePayload, OP_ACK] using h
  | nack reason =>
    have h := decode_frame OP_NACK [reason]
    simpa [encodeResponse, responseOpcode, responsePayload, OP_ACK, OP_NACK]
      using h

/-! ## Claim theorems -/

/-- Claim C2: for every valid command, decoding the encoding of that
command's expected ack bytes yields the same logical `Response` — the
Frame Codec's decode ∘ encode is the identity on well-formed
acknowledgements. -/
theorem ack_roundtrip (c : Command) (p : List Nat)
    (_hv : validCommand c) (_hlen : p.length = ackPayloadLen c)
    (_hbytes : ∀ b ∈ p, b < 256) :
    decode (encodeResponse (Response.ack p)) = Except.ok (Response.ack p) :=
  decode_encodeResponse (Response.ack p)

/-- Witness for C2 at the command `GpioGet 5` with its one-byte ack
payload. -/
theorem ack_roundtrip_witness :
    decode (encodeResponse (Response.ack [0])) =
      Except.ok (Response.ack [0]) :=
  ack_roundtrip (Command.gpioGet 5) [0] (by decide) (by decide) (by decide)

/-- Claim C3: `decode` returns `Truncated` when fewer bytes than the
declared length are present, `ChecksumMismatch` when the integrity check
fails, `UnknownOpcode` for an unrecognized response tag, and no malformed
frame ever decodes to a successful `Response`. -/
theorem decode_error_classification (bytes : List Nat) :
    (∀ op len rest, bytes = op :: len :: rest → rest.length < len + 1 →
      decode bytes = Except.error DecodeError.truncated) ∧
    (bytes.length < 2 → decode bytes = Except.error DecodeError.truncated) ∧
    (∀ op len rest, bytes = op :: len :: rest → len + 1 ≤ rest.length →
      checksum8 (op :: len :: rest.take len) ≠ rest.getD len 0 →
      decode bytes = Except.error DecodeError.checksumMismatch) ∧
    (∀ op len rest, bytes = op :: len :: rest → len + 1 ≤ rest.length →
      checksum8 (op :: len :: rest.take len) = rest.getD len 0 →
      op ≠ OP_ACK → op ≠ OP_NACK →
      decode bytes = Except.error DecodeError.unknownOpcode) ∧
    (∀ r, decode bytes = Except.ok r → wellFramed bytes) := by
  refine ⟨?_, ?_, ?_, ?_, ?_⟩
  · intro op len rest hb hshort
    subst hb
    simp [decode, hshort]
  · intro hshort
    match bytes, hshort with
    | [], _ => rfl
    | [_], _ => rfl
  · intro op len rest hb henough hck
    subst hb
    rw [List.getD_eq_getElem?_getD] at hck
    simp [decode, Nat.not_lt.mpr henough, hck, List.getD]
  · intro op len rest hb henough hck hack hnack
    subst hb
    simp [decode, Nat.not_lt.mpr henough, hck, hack, hnack]
  · intro r h
    match bytes with
    | [] => exact absurd h (by simp [decode])
    | [_] => exact absurd h (by simp [decode])
    | op :: len :: rest =>
      simp only [decode] at h
      split_ifs at h with h1 h2 h3 h4
      · exact ⟨Nat.not_lt.mp h1, not_ne_iff.mp h2, Or.inl h3⟩
      · exact ⟨Nat.not_lt.mp h1, not_ne_iff.mp h2, Or.inr h4⟩

/-- Witness for C3: one concrete input for each error class and one
well-framed success. -/
theorem decode_error_classification_witness :
    decode [6, 2, 0] = Except.error DecodeError.truncated ∧
    decode [6] = Except.error DecodeError.truncated ∧
    decode [6, 1, 0, 99] = Except.error DecodeError.checksumMismatch ∧
    decode [9, 0, 9] = Except.error DecodeError.unknownOpcode ∧
    wellFramed [6, 0, 6] := by
  refine ⟨?_, ?_, ?_, ?_, ?_⟩
  · exact (decode_error_classification [6, 2, 0]).1 6 2 [0] rfl (by decide)
  · exact (decode_error_classification [6]).2.1 (by decide)
  · exact (decode_error_classification [6, 1, 0, 99]).2.2.1 6 1 [0, 99] rfl
      (by decide) (by decide)
  · exact (decode_error_classification [9, 0, 9]).2.2.2.1 9 0 [9] rfl
      (by decide) (by decide) (by decide) (by decide)
  · exact (decode_error_classification [6, 0, 6]).2.2.2.2
      (Response.ack []) rfl

theorem outstandingAfter_cycle (a b : List Nat) (t : List TraceEvent) :
    outstandingAfter (TraceEvent.wr a :: TraceEvent.rd b :: t) =
      outstandingAfter t := rfl

/-- Claim C1: the Control Channel serializes all callers — processing any
queue of N requests produces exactly N complete, non-interleaved
request/response cycles on the transport, and at most one request is
outstanding at any point of the trace. -/
theorem control_channel_serializes_cycles
    (respond : Command → List Nat) (reqs : List Command) :
    channelTrace respond reqs = (reqs.map (requestCycle respond)).flatten ∧
    (reqs.map (requestCycle respond)).length = reqs.length ∧
    ∀ k, outstandingAfter ((channelTrace respond reqs).take k) ≤ 1 := by
  refine ⟨?_, List.length_map _ _, ?_⟩
  · induction reqs with
    | nil => rfl
    | cons c rest ih => simp [channelTrace, ih]
  · intro k
    induction reqs generalizing k with
    | nil =>
      simp only [channelTrace, List.take_nil]
      exact Nat.zero_le 1
    | cons c rest ih =>
      match k with
      | 0 => exact Nat.zero_le 1
      | 1 => exact Nat.le_refl 1
      | Nat.succ (Nat.succ n) =>
        have htake : (channelTrace respond (c :: rest)).take (n + 2) =
            TraceEvent.wr (encodeCommand c) :: TraceEvent.rd (respond c) ::
              (channelTrace respond rest).take n := rfl
        rw [htake, outstandingAfter_cycle]
        exact ih n

/-- Claim C4: `execute` performs zero automatic retries — it consumes
exactly one transport cycle — and on timeout returns
`ChannelError::Timeout` with any partially buffered bytes discarded, so
the channel is back at a frame boundary for the next request. -/
theorem execute_no_retry_timeout_discards (st : ChannelState) (c : Command)
    (o : TransportOutcome) (rest : List TransportOutcome) :
    (execute st c (o :: rest)).2.2 = rest ∧
    ∀ stray, o = TransportOutcome.timedOut stray →
      (execute st c (o :: rest)).1 = Except.error ChannelError.timeout ∧
      (execute st c (o :: rest)).2.1.buffer = [] := by
  constructor
  · cases o with
    | timedOut stray => rfl
    | delivered bytes =>
      show (match decode bytes with
        | Except.error e =>
            (Except.error (ChannelError.protocol e), ChannelState.mk [], rest)
        | Except.ok r => (Except.ok r, ChannelState.mk [], rest)).2.2 = rest
      cases decode bytes <;> rfl
  · intro stray ho
    subst ho
    exact ⟨rfl, rfl⟩

/-- Witness for C4 at a concrete timed-out cycle with stray bytes and a
non-empty prior buffer. -/
theorem execute_no_retry_timeout_discards_witness :
    (execute ⟨[1, 2]⟩ (Command.gpioGet 0)
        [TransportOutcome.timedOut [5]]).1 =
      Except.error ChannelError.timeout ∧
    (execute ⟨[1, 2]⟩ (Command.gpioGet 0)
        [TransportOutcome.timedOut [5]]).2.1.buffer = [] :=
  (execute_no_retry_timeout_discards ⟨[1, 2]⟩ (Command.gpioGet 0)
    (TransportOutcome.timedOut [5]) []).2 [5] rfl

theorem gpioSetAttempts_delivered_ack (pin level : Nat) (n : Nat)
    (st : ChannelState) (bytes : List Nat) (rest : List TransportOutcome)
    (p : List Nat) (h : decode bytes = Except.ok (Response.ack p)) :
    gpioSetAttempts pin level n st (TransportOutcome.delivered bytes :: rest)
      = (Except.ok (), ⟨[]⟩, rest, 1) := by
  cases n <;> simp [gpioSetAttempts, execute, h]

theorem gpioSetAttempts_delivered_nack (pin level : Nat) (n : Nat)
    (st : ChannelState) (bytes : List Nat) (rest : List TransportOutcome)
    (reason : Nat) (h : decode bytes = Except.ok (Response.nack reason)) :
    gpioSetAttempts pin level n st (TransportOutcome.delivered bytes :: rest)
      = (Except.error (GpioError.rejected reason), ⟨[]⟩, rest, 1) := by
  cases n <;> simp [gpioSetAttempts, execute, h]

theorem gpioSetAttempts_all_timeout (pin level : Nat) (n : Nat)
    (st : ChannelState) (outs : List TransportOutcome)
    (h : ∀ o ∈ outs, ∃ s, o = TransportOutcome.timedOut s) :
    (gpioSetAttempts pin level n st outs).1 =
      Except.error GpioError.unreachable ∧
    (gpioSetAttempts pin level n st outs).2.2.2 = n + 1 := by
  induction n generalizing st outs with
  | zero =>
    match outs, h with
    | [], _ => exact ⟨rfl, rfl⟩
    | o :: rest, h =>
      obtain ⟨s, hs⟩ := h o (List.mem_cons_self o rest)
      subst hs
      exact ⟨rfl, rfl⟩
  | succ m ih =>
    match outs, h with
    | [], h =>
      have hrec := ih ⟨[]⟩ [] (by intro o ho; exact absurd ho (by simp))
      refine ⟨?_, ?_⟩
      · show (gpioSetAttempts pin level m ⟨[]⟩ []).1 = _
        exact hrec.1
      · show (gpioSetAttempts pin level m ⟨[]⟩ []).2.2.2 + 1 = m + 1 + 1
        rw [hrec.2]
    | o :: rest, h =>
      obtain ⟨s, hs⟩ := h o (List.mem_cons_self o rest)
      subst hs
      have hrec := ih ⟨[]⟩ rest
        (by intro o ho; exact h o (List.mem_cons_of_mem _ ho))
      refine ⟨?_, ?_⟩
      · show (gpioSetAttempts pin level m ⟨[]⟩ rest).1 = _
        exact hrec.1
      · show (gpioSetAttempts pin level m ⟨[]⟩ rest).2.2.2 + 1 = m + 1 + 1
        rw [hrec.2]

/-- Claim C5: `GpioController::set` maps `Ack` to success and `Nack` to
`GpioError::Rejected(reason)`; timeouts are retried up to
`GPIO_SET_RETRIES` (2) and, when every attempt times out, the result is
`GpioError::Unreachable` after exactly `GPIO_SET_RETRIES + 1` attempts. -/
theorem gpio_set_retry_policy (pin level : Nat) (st : ChannelState)
    (bytes : List Nat) (rest outs : List TransportOutcome)
    (p : List Nat) (reason : Nat) :
    (decode bytes = Except.ok (Response.ack p) →
      gpioSet pin level st (TransportOutcome.delivered bytes :: rest)
        = (Except.ok (), ⟨[]⟩, rest, 1)) ∧
    (decode bytes = Except.ok (Response.nack reason) →
      gpioSet pin level st (TransportOutcome.delivered bytes :: rest)
        = (Except.error (GpioError.rejected reason), ⟨[]⟩, rest, 1)) ∧
    ((∀ o ∈ outs, ∃ s, o = TransportOutcome.timedOut s) →
      (gpioSet pin level st outs).1 = Except.error GpioError.unreachable ∧
      (gpioSet pin level st outs).2.2.2 = GPIO_SET_RETRIES + 1) := by
  refine ⟨?_, ?_, ?_⟩
  · intro h
    exact gpioSetAttempts_delivered_ack pin level GPIO_SET_RETRIES st bytes
      rest p h
  · intro h
    exact gpioSetAttempts_delivered_nack pin level GPIO_SET_RETRIES st bytes
      rest reason h
  · intro h
    exact gpioSetAttempts_all_timeout pin level GPIO_SET_RETRIES st outs h

/-- Witness for C5: an acknowledged set succeeds in one attempt; a device
`Nack{reason=1}` is surfaced as `Rejected 1`; a transport that always
times out yields `Unreachable` after three attempts. -/
theorem gpio_set_retry_policy_witness :
    gpioSet 0 1 ⟨[]⟩ [TransportOutcome.delivered [6, 0, 6]]
      = (Except.ok (), ⟨[]⟩, [], 1) ∧
    gpioSet 0 1 ⟨[]⟩ [TransportOutcome.delivered [7, 1, 1, 9]]
      = (Except.error (GpioError.rejected 1), ⟨[]⟩, [], 1) ∧
    (gpioSet 0 1 ⟨[]⟩ [TransportOutcome.timedOut []]).1
      = Except.error GpioError.unreachable ∧
    (gpioSet 0 1 ⟨[]⟩ [TransportOutcome.timedOut []]).2.2.2
      = GPIO_SET_RETRIES + 1 := by
  have h1 := (gpio_set_retry_policy 0 1 ⟨[]⟩ [6, 0, 6] []
    [TransportOutcome.timedOut []] [] 1).1 rfl
  have h2 := (gpio_set_retry_policy 0 1 ⟨[]⟩ [7, 1, 1, 9] []
    [TransportOutcome.timedOut []] [] 1).2.1 rfl
  have h3 := (gpio_set_retry_policy 0 1 ⟨[]⟩ [7, 1, 1, 9] []
    [TransportOutcome.timedOut []] [] 1).2.2
    (by
      intro o ho
      rw [List.mem_singleton] at ho
      exact ⟨[], ho⟩)
  exact ⟨h1, h2, h3.1, h3.2⟩

/-- Claim C6: I2C read and write reject an address outside 0–127 or a
length/data size beyond the frame payload capacity with
`I2cError::InvalidArgument`, performing zero transport cycles and leaving
the channel state and the transport untouched. -/
theorem i2c_invalid_argument_fail_fast (address register length : Nat)
    (data : List Nat) (st : ChannelState) (outs : List TransportOutcome) :
    (127 < address ∨ MAX_PAYLOAD < length →
      i2cRead address register length st outs
        = (Except.error I2cError.invalidArgument, st, outs, 0)) ∧
    (127 < address ∨ MAX_PAYLOAD < data.length →
      i2cWrite address register data st outs
        = (Except.error I2cError.invalidArgument, st, outs, 0)) := by
  constructor
  · intro h
    simp [i2cRead, h]
  · intro h
    simp [i2cWrite, h]

/-- Witness for C6 at the spec's example `read(address=128, register=0,
length=1)` and the matching write. -/
theorem i2c_invalid_argument_fail_fast_witness :
    i2cRead 128 0 1 ⟨[]⟩ []
      = (Except.error I2cError.invalidArgument, ⟨[]⟩, [], 0) ∧
    i2cWrite 128 0 [1] ⟨[]⟩ []
      = (Except.error I2cError.invalidArgument, ⟨[]⟩, [], 0) :=
  ⟨(i2c_invalid_argument_fail_fast 128 0 1 [1] ⟨[]⟩ []).1
      (Or.inl (by decide)),
   (i2c_invalid_argument_fail_fast 128 0 1 [1] ⟨[]⟩ []).2
      (Or.inl (by decide))⟩

/-- Claim C7: on timeout, `I2cPassthrough::write` performs zero automatic
retries and fails with `I2cError::Unreachable` after exactly one
transport cycle; `AdcReader::read` likewise returns
`AdcError::Unreachable` after exactly one cycle, and a `Nack` maps to
`AdcError::Rejected(reason)` with no retry. -/
theorem no_retry_i2c_write_adc_read
    (address register channel : Nat) (data stray bytes : List Nat)
    (st : ChannelState) (rest : List TransportOutcome) (reason : Nat) :
    (address ≤ 127 → data.length ≤ MAX_PAYLOAD →
      i2cWrite address register data st
          (TransportOutcome.timedOut stray :: rest)
        = (Except.error I2cError.unreachable, ⟨[]⟩, rest, 1)) ∧
    (channel < ADC_CHANNELS →
      adcRead channel st (TransportOutcome.timedOut stray :: rest)
        = (Except.error AdcError.unreachable, ⟨[]⟩, rest, 1)) ∧
    (channel < ADC_CHANNELS →
      decode bytes = Except.ok (Response.nack reason) →
      adcRead channel st (TransportOutcome.delivered bytes :: rest)
        = (Except.error (AdcError.rejected reason), ⟨[]⟩, rest, 1)) := by
  refine ⟨?_, ?_, ?_⟩
  · intro ha hd
    have hcond : ¬(127 < address ∨ MAX_PAYLOAD < data.length) := by
      push_neg
      exact ⟨ha, hd⟩
    simp [i2cWrite, hcond, execute]
  · intro hc
    simp [adcRead, Nat.not_le.mpr hc, execute]
  · intro hc hdec
    simp [adcRead, Nat.not_le.mpr hc, execute, hdec]

/-- Witness for C7: a timed-out write and a timed-out / nacked ADC read
on channel 0. -/
theorem no_retry_i2c_write_adc_read_witness :
    i2cWrite 1 2 [3] ⟨[]⟩ [TransportOutcome.timedOut []]
      = (Except.error I2cError.unreachable, ⟨[]⟩, [], 1) ∧
    adcRead 0 ⟨[]⟩ [TransportOutcome.timedOut []]
      = (Except.error AdcError.unreachable, ⟨[]⟩, [], 1) ∧
    adcRead 0 ⟨[]⟩ [TransportOutcome.delivered [7, 1, 1, 9]]
      = (Except.error (AdcError.rejected 1), ⟨[]⟩, [], 1) :=
  ⟨(no_retry_i2c_write_adc_read 1 2 0 [3] [] [7, 1, 1, 9] ⟨[]⟩ [] 1).1
      (by decide) (by decide),
   (no_retry_i2c_write_adc_read 1 2 0 [3] [] [7, 1, 1, 9] ⟨[]⟩ [] 1).2.1
      (by decide),
   (no_retry_i2c_write_adc_read 1 2 0 [3] [] [7, 1, 1, 9] ⟨[]⟩ [] 1).2.2
      (by decide) rfl⟩

theorem leNat_append (xs ys : List Nat) :
    leNat (xs ++ ys) = leNat xs + 256 ^ xs.length * leNat ys := by
  induction xs with
  | nil => simp [leNat]
  | cons b t ih =>
    show leNat (b :: (t ++ ys)) = leNat (b :: t) + 256 ^ (b :: t).length * leNat ys
    simp only [leNat, List.length_cons, pow_succ]
    rw [ih]
    ring

theorem hash_to_f64_eq_leNat (bytes : List Nat) (h : bytes.length = 32) :
    hash_to_f64 bytes = (leNat bytes : ℚ) := by
  have h8 : (bytes.take 8).length = 8 := by simp [h]
  have hd8 : (bytes.drop 8).length = 24 := by simp [h]
  have h16 : ((bytes.drop 8).take 8).length = 8 := by simp [hd8]
  have hd16 : (bytes.drop 16).length = 16 := by simp [h]
  have h24 : ((bytes.drop 16).take 8).length = 8 := by simp [hd16]
  have hd24 : (bytes.drop 24).length = 8 := by simp [h]
  have e0 : leNat bytes =
      leNat (bytes.take 8) + 256 ^ 8 * leNat (bytes.drop 8) := by
    conv_lhs => rw [← List.take_append_drop 8 bytes]
    rw [leNat_append, h8]
  have e1 : leNat (bytes.drop 8) =
      leNat ((bytes.drop 8).take 8) + 256 ^ 8 * leNat (bytes.drop 16) := by
    conv_lhs => rw [← List.take_append_drop 8 (bytes.drop 8)]
    rw [leNat_append, h16, List.drop_drop]
  have e2 : leNat (bytes.drop 16) =
      leNat ((bytes.drop 16).take 8) + 256 ^ 8 * leNat (bytes.drop 24) := by
    conv_lhs => rw [← List.take_append_drop 8 (bytes.drop 16)]
    rw [leNat_append, h24, List.drop_drop]
  have e3 : (bytes.drop 24).take 8 = bytes.drop 24 :=
    List.take_of_length_le (by rw [hd24])
  rw [hash_to_f64, e3]
  rw [e0, e1, e2]
  push_cast
  rw [show BITS_64 = (256 : ℚ) ^ 8 by norm_num [BITS_64],
    show BITS_128 = (256 : ℚ) ^ 8 * (256 : ℚ) ^ 8 by norm_num [BITS_128],
    show BITS_192 = (256 : ℚ) ^ 8 * ((256 : ℚ) ^ 8 * (256 : ℚ) ^ 8) by
      norm_num [BITS_192]]
  ring

/-- Claim C8: `DisplayDifficulty::from_hash` guards its division — a hash
whose little-endian numeric value is zero (the only way the `f64`
conversion yields `0.0`) maps to `f64::MAX`, and every other hash maps to
the difficulty-1 target constant divided by the hash's numeric value. -/
theorem from_hash_division_guarded (bytes : List Nat)
    (h : bytes.length = 32) :
    (leNat bytes = 0 → from_hash bytes = F64_MAX) ∧
    (leNat bytes ≠ 0 →
      hash_to_f64 bytes ≠ 0 ∧
      from_hash bytes = DIFFICULTY_1_TARGET_F64 / (leNat bytes : ℚ)) := by
  have he := hash_to_f64_eq_leNat bytes h
  constructor
  · intro h0
    rw [from_hash, if_pos (by rw [he, h0]; norm_num)]
  · intro h0
    have hne : hash_to_f64 bytes ≠ 0 := by
      rw [he]
      exact_mod_cast h0
    refine ⟨hne, ?_⟩
    rw [from_hash, if_neg hne, he]

/-- Witness for C8: the all-zero hash maps to `f64::MAX`; the hash with
value 1 maps to the difficulty-1 constant divided by 1. -/
theorem from_hash_division_guarded_witness :
    from_hash (List.replicate 32 0) = F64_MAX ∧
    from_hash (1 :: List.replicate 31 0)
      = DIFFICULTY_1_TARGET_F64 / ((leNat (1 :: List.replicate 31 0) : ℚ)) :=
  ⟨(from_hash_division_guarded (List.replicate 32 0) (by decide)).1
      (by decide),
   ((from_hash_division_guarded (1 :: List.replicate 31 0) (by decide)).2
      (by decide)).2⟩

/-- Claim C9: the `Display` implementation for `DisplayDifficulty` picks
the SI suffix by the first matching threshold (≥ 1e15 gives P, ≥ 1e12
gives T, ≥ 1e9 gives G, ≥ 1e6 gives M, ≥ 1e3 gives K, otherwise none)
and prints the scaled value with 0 decimal places when it is ≥ 100, 1
when ≥ 10, and 2 otherwise. -/
theorem display_suffix_precision (v s : ℚ) :
    (1000000000000000 ≤ v →
      siSplit v = (v / 1000000000000000, "P")) ∧
    (1000000000000 ≤ v → v < 1000000000000000 →
      siSplit v = (v / 1000000000000, "T")) ∧
    (1000000000 ≤ v → v < 1000000000000 →
      siSplit v = (v / 1000000000, "G")) ∧
    (1000000 ≤ v → v < 1000000000 →
      siSplit v = (v / 1000000, "M")) ∧
    (1000 ≤ v → v < 1000000 →
      siSplit v = (v / 1000, "K")) ∧
    (v < 1000 → siSplit v = (v, "")) ∧
    (100 ≤ s → displayPrecision s = 0) ∧
    (10 ≤ s → s < 100 → displayPrecision s = 1) ∧
    (s < 10 → displayPrecision s = 2) ∧
    displayFormat v = ((siSplit v).1, (siSplit v).2,
      displayPrecision (siSplit v).1) := by
  refine ⟨?_, ?_, ?_, ?_, ?_, ?_, ?_, ?_, ?_, ?_⟩
  · intro h1
    rw [siSplit, if_pos (by exact h1)]
  · intro h1 h2
    rw [siSplit, if_neg (by simpa using not_le.mpr h2), if_pos (by exact h1)]
  · intro h1 h2
    rw [siSplit, if_neg (by simp only [ge_iff_le, not_le]; linarith),
      if_neg (by simpa using not_le.mpr h2), if_pos (by exact h1)]
  · intro h1 h2
    rw [siSplit, if_neg (by simp only [ge_iff_le, not_le]; linarith),
      if_neg (by simp only [ge_iff_le, not_le]; linarith),
      if_neg (by simpa using not_le.mpr h2), if_pos (by exact h1)]
  · intro h1 h2
    rw [siSplit, if_neg (by simp only [ge_iff_le, not_le]; linarith),
      if_neg (by simp only [ge_iff_le, not_le]; linarith),
      if_neg (by simp only [ge_iff_le, not_le]; linarith),
      if_neg (by simpa using not_le.mpr h2), if_pos (by exact h1)]
  · intro h1
    rw [siSplit, if_neg (by simp only [ge_iff_le, not_le]; linarith),
      if_neg (by simp only [ge_iff_le, not_le]; linarith),
      if_neg (by simp only [ge_iff_le, not_le]; linarith),
      if_neg (by simp only [ge_iff_le, not_le]; linarith),
      if_neg (by simpa using not_le.mpr h1)]
  · intro h1
    rw [displayPrecision, if_pos (by exact h1)]
  · intro h1 h2
    rw [displayPrecision, if_neg (by simpa using not_le.mpr h2),
      if_pos (by exact h1)]
  · intro h1
    rw [displayPrecision, if_neg (by simp only [ge_iff_le, not_le]; linarith),
      if_neg (by simpa using not_le.mpr h1)]
  · rfl

/-- Witness for C9: 5000 scales to 5 with suffix K and is printed with 2
decimal places. -/
theorem display_suffix_precision_witness :
    siSplit 5000 = (5000 / 1000, "K") ∧ displayPrecision 5 = 2 :=
  ⟨(display_suffix_precision 5000 5).2.2.2.2.1 (by norm_num) (by norm_num),
   (display_suffix_precision 5000 5).2.2.2.2.2.2.2.2.1 (by norm_num)⟩

/-- Claim C10: `minerd`'s `main` prints the usage text and returns
`Ok(())` without running the daemon when the first argument is exactly
`--help`; prints an unknown-option message and exits with status 1 for
any other first argument; and only with no arguments initializes tracing
and runs the daemon. -/
theorem minerd_main_args (prog arg : String) (rest : List String) :
    (arg = "--help" →
      minerd_main (prog :: arg :: rest) = ⟨true, false, 0, false, false⟩) ∧
    (arg ≠ "--help" →
      minerd_main (prog :: arg :: rest) = ⟨false, true, 1, false, false⟩) ∧
    minerd_main [prog] = ⟨false, false, 0, true, true⟩ ∧
    minerd_main [] = ⟨false, false, 0, true, true⟩ ∧
    ∀ args : List String,
      (minerd_main args).daemonRan = true → args.length ≤ 1 := by
  refine ⟨?_, ?_, rfl, rfl, ?_⟩
  · intro h
    simp [minerd_main, h]
  · intro h
    simp [minerd_main, h]
  · intro args h
    match args with
    | [] => exact Nat.zero_le 1
    | [a] => exact Nat.le_refl 1
    | a :: b :: t =>
      by_cases hb : b = "--help" <;> simp [minerd_main, hb] at h

/-- Witness for C10 at the concrete invocations `minerd --help` and
`minerd -x`. -/
theorem minerd_main_args_witness :
    minerd_main ["mujina-minerd", "--help"]
      = ⟨true, false, 0, false, false⟩ ∧
    minerd_main ["mujina-minerd", "-x"]
      = ⟨false, true, 1, false, false⟩ :=
  ⟨(minerd_main_args "mujina-minerd" "--help" []).1 rfl,
   (minerd_main_args "mujina-minerd" "-x" []).2.1 (by decide)⟩

end Mujina
